import Mathlib

/-!
Verification of the P3F CEP-o-matic asset staging script (`P3F_CEPomatic.py`).

Shallow embedding: the working (Setup) directory, the destination firmware
(BIOS) directory and the memory-card directory are lists of file names; the
directory scan loop, the checksum branch, the firmware branches and the final
gate are translated as functions on an explicit state, and every primitive
filesystem operation the script performs is recorded as an event.  External
collaborators (the xxh3_64 checksum of a file, the 7z subprocess) are oracles
in an environment record.  An uncaught Python exception is modelled by
`Res.crashed` and the `Outcome.exception` outcome, while the script's
`fatal_error` routine (critical diagnostic naming the log file, blocking
`input()` prompt, `sys.exit()`) is `Outcome.fatal`.
-/

namespace CEPomatic

/-- Python `str.lower()`, restricted to ASCII case mapping, which covers every
comparison the script performs (`file.lower().endswith('.iso')`). -/
def lower (s : String) : String := ⟨s.data.map Char.toLower⟩

/-- Python `str.endswith(suf)`. -/
def endswith (s suf : String) : Bool := suf.data.isSuffixOf s.data

/-- Python `str.startswith(p)`. -/
def startswith (s p : String) : Bool := p.data.isPrefixOf s.data

/-- Python `pathlib.PurePath(name).stem`: the final component without its last
suffix.  The last dot counts only if it is neither the first nor the last
character of the name (so `.mec` has no suffix and is its own stem). -/
def stem (name : String) : String :=
  let cs := name.data
  let n := cs.length
  let k := cs.reverse.indexOf '.'
  if 1 ≤ k ∧ k + 1 < n then ⟨cs.take (n - 1 - k)⟩ else name

/-- The set of names matched by `BIOS_DIR.glob('*.*')`: fnmatch of `*.*`
accepts exactly the names containing a dot. -/
def globStarDotStar (name : String) : Bool := name.data.contains '.'

/-- `ISO_NAME` from the script. -/
def ISO_NAME : String := "P3F.iso"

/-- `SLUS_NAME` from the script. -/
def SLUS_NAME : String := "SLUS_216.21"

/-- `ELF_NAME` from the script. -/
def ELF_NAME : String := SLUS_NAME ++ ".elf"

/-- `ISO_CHECKSUM` from the script. -/
def ISO_CHECKSUM : String := "94a81c7c5f0d255c"

/-- The components of `SETUPDIR_NAME = Path('P3F Mods/Setup')`. -/
def SETUPDIR_COMPONENTS : List String := ["P3F Mods", "Setup"]

/-- One primitive filesystem operation performed by the script.  The last two
constructors (`removeSetup`, `renameSetup`) are not emitted by the embedded
code; they exist only so that the specification's delete-then-rename
description of the overwrite can be written down and compared against the
implementation's single `os.replace`. -/
inductive Ev where
  | replaceSetup (src dst : String)
  | extractCall
  | moveMemcard (name : String)
  | removeBios (name : String)
  | moveIsoOut
  | moveElfOut
  | moveBiosIn (name : String)
  | removeSetup (name : String)
  | renameSetup (src dst : String)
  deriving DecidableEq

/-- Events that the directory scan loop itself can emit (everything before the
final gate): in-place `os.replace` in the Setup directory, the 7z subprocess
call, and the immediate `.ps2` memory-card move. -/
def Ev.isScanEv : Ev → Bool
  | .replaceSetup _ _ => true
  | .extractCall => true
  | .moveMemcard _ => true
  | _ => false

/-- Program state: contents of the Setup, BIOS and memcards directories, the
two run-state flags `found_iso` / `found_bios`, and the trace of filesystem
events performed so far. -/
structure St where
  setup : List String
  bios : List String
  mem : List String
  found_iso : Bool
  found_bios : String
  events : List Ev
  deriving DecidableEq

/-- Environment oracles: the xxh3_64 checksum of each file, whether the 7z
subprocess exits with code 0, and whether (on exit 0) the extracted entry
actually appears in the working directory. -/
structure Env where
  checksumOf : String → String
  extractExitZero : Bool
  extractProduces : Bool

/-- Result of a code fragment: normal completion, or an uncaught Python
exception (`Res.crashed` carries the state at the moment the exception is
raised, events included). -/
inductive Res where
  | ok (st : St)
  | crashed (st : St)
  deriving DecidableEq

/-- The state carried by a result, whether or not an exception was raised. -/
def Res.state : Res → St
  | .ok st => st
  | .crashed st => st

/-- Add a name to a directory listing unless it is already present
(overwriting never duplicates a directory entry). -/
def insertName (n : String) (l : List String) : List String :=
  if n ∈ l then l else n :: l

/-- `os.replace(src, dst)` with both paths in the Setup directory: a single
atomic rename-or-replace.  Raises (`crashed`) if the source does not exist. -/
def replaceSetupOp (st : St) (src dst : String) : Res :=
  if src ∈ st.setup then
    .ok { st with setup := insertName dst (st.setup.erase src),
                  events := st.events ++ [.replaceSetup src dst] }
  else .crashed st

/-- Lines 145-147: rename the disc image to `ISO_NAME` unless it already has
that name. -/
def renameToCanonical (st : St) (file : String) : Res :=
  if file = ISO_NAME then .ok st else replaceSetupOp st file ISO_NAME

/-- Line 151: `subprocess.check_call([7z, 'x', '-y', ISO_NAME, SLUS_NAME])`.
The subprocess always runs (the call event is recorded); a non-zero exit code
makes `check_call` raise `CalledProcessError`, which the script does not
catch. -/
def extractOp (env : Env) (st : St) : Res :=
  let st1 : St := { st with events := st.events ++ [.extractCall] }
  if env.extractExitZero then
    if env.extractProduces then
      .ok { st1 with setup := insertName SLUS_NAME st1.setup }
    else .ok st1
  else .crashed st1

/-- Line 197: `shutil.move` of a `.ps2` file into the memcards directory,
overwriting any file of the same name.  Raises if the source is missing. -/
def moveMemOp (st : St) (name : String) : Res :=
  if name ∈ st.setup then
    .ok { st with setup := st.setup.erase name,
                  mem := insertName name st.mem,
                  events := st.events ++ [.moveMemcard name] }
  else .crashed st

/-- Lines 135-165: the body of the `.iso` branch.  Validate the checksum; on a
match rename to `ISO_NAME`, run the extractor, rename the extracted entry to
`ELF_NAME`, then set `found_iso` exactly if both canonical files exist; on a
mismatch log an error and leave the state unchanged. -/
def isoBranch (env : Env) (st : St) (file : String) : Res :=
  if env.checksumOf file = ISO_CHECKSUM then
    match renameToCanonical st file with
    | .crashed s => .crashed s
    | .ok s1 =>
      match extractOp env s1 with
      | .crashed s => .crashed s
      | .ok s2 =>
        match replaceSetupOp s2 SLUS_NAME ELF_NAME with
        | .crashed s => .crashed s
        | .ok s3 =>
          .ok { s3 with found_iso := decide (ISO_NAME ∈ s3.setup ∧ ELF_NAME ∈ s3.setup) }
  else .ok st

/-- Lines 130-197: one iteration of the scan loop, the elif chain on the file
name.  The `.mec` branch's inner loop only logs sibling names, so its sole
state effect is recording the base name in `found_bios`. -/
def scanStep (env : Env) (st : St) (file : String) : Res :=
  if endswith (lower file) ".iso" = true ∧ st.found_iso = false then
    isoBranch env st file
  else if endswith file ".bin" = true ∧ st.found_bios = "none" then
    .ok { st with found_bios := file }
  else if endswith file ".mec" = true ∧ st.found_bios = "none" then
    .ok { st with found_bios := stem file }
  else if endswith file ".ps2" = true then
    moveMemOp st file
  else .ok st

/-- The scan loop over the snapshot returned by `os.listdir(SETUP_DIR)`.
An uncaught exception in any iteration aborts the whole loop. -/
def scanList (env : Env) : St → List String → Res
  | st, [] => .ok st
  | st, f :: fs =>
    match scanStep env st f with
    | .ok st1 => scanList env st1 fs
    | .crashed s => .crashed s

/-- `shutil.move` of a firmware file from the Setup directory into the BIOS
directory (lines 219 and 225), overwriting any file of the same name. -/
def moveBiosInOp (st : St) (name : String) : Res :=
  if name ∈ st.setup then
    .ok { st with setup := st.setup.erase name,
                  bios := insertName name st.bios,
                  events := st.events ++ [.moveBiosIn name] }
  else .crashed st

/-- `shutil.move` of a canonical file out of the Setup directory into its
destination directory (lines 210 and 214). -/
def moveOutOp (st : St) (name : String) (e : Ev) : Res :=
  if name ∈ st.setup then
    .ok { st with setup := st.setup.erase name, events := st.events ++ [e] }
  else .crashed st

/-- Lines 223-226: move every file of the listed snapshot whose name starts
with the recorded loose-firmware base name into the BIOS directory. -/
def moveLoose (base : String) : St → List String → Res
  | st, [] => .ok st
  | st, f :: fs =>
    if startswith f base = true then
      match moveBiosInOp st f with
      | .ok st1 => moveLoose base st1 fs
      | .crashed s => .crashed s
    else moveLoose base st fs

/-- Lines 204-206: `for f in BIOS_DIR.glob('*.*'): os.remove(f)` — delete the
files of the BIOS directory whose names contain a dot, in listing order. -/
def removeBiosFiles (st : St) : St :=
  { st with bios := st.bios.filter (fun f => !globStarDotStar f),
            events := st.events ++ (st.bios.filter globStarDotStar).map Ev.removeBios }

/-- How the run ends: `success` is the normal exit of line 237, `fatal` is the
`fatal_error` routine (critical message naming the log file, blocking prompt,
`sys.exit`), `exception` is an uncaught Python exception terminating the
process with a traceback. -/
inductive Outcome where
  | success
  | fatal
  | exception
  deriving DecidableEq

/-- Final result of a run: the outcome and the terminal state. -/
structure RunResult where
  outcome : Outcome
  st : St
  deriving DecidableEq

/-- Lines 199-232: the final gate.  If a valid disc image and some firmware
were found, empty the BIOS directory (only `*.*` matches) when it is
non-empty, then move the canonical ISO, the canonical ELF, and the packaged or
loose firmware into their destinations; otherwise report what is missing and
call `fatal_error`. -/
def finalGate (st : St) : RunResult :=
  if st.found_iso = true ∧ st.found_bios ≠ "none" then
    let st1 := if st.bios.isEmpty then st else removeBiosFiles st
    match moveOutOp st1 ISO_NAME .moveIsoOut with
    | .crashed s => ⟨.exception, s⟩
    | .ok st2 =>
      match moveOutOp st2 ELF_NAME .moveElfOut with
      | .crashed s => ⟨.exception, s⟩
      | .ok st3 =>
        if endswith st.found_bios ".bin" = true then
          match moveBiosInOp st3 st.found_bios with
          | .crashed s => ⟨.exception, s⟩
          | .ok st4 => ⟨.success, st4⟩
        else
          match moveLoose st.found_bios st3 st3.setup with
          | .crashed s => ⟨.exception, s⟩
          | .ok st4 => ⟨.success, st4⟩
  else ⟨.fatal, st⟩

/-- Whether the final gate's flag test of line 200 passes for a scan result
(an aborted scan never reaches the gate). -/
def gatePassed : Res → Bool
  | .ok st => st.found_iso && !(st.found_bios == "none")
  | .crashed _ => false

/-- The whole run.  `cwd` is the component list of the absolute working
directory.  With fewer than two ancestors, `SETUP_DIR.parents[1]` (line 126) —
or already `SETUP_DIR.parents[0]` (line 31) — raises an uncaught `IndexError`;
otherwise the location check compares the grandparent joined with
`SETUPDIR_NAME` against the working directory, i.e. its last two components
against `SETUPDIR_COMPONENTS`, and calls `fatal_error` on a mismatch.  Only
then is the directory scanned and the final gate evaluated. -/
def run (cwd : List String) (env : Env) (init : St) : RunResult :=
  if cwd.length < 2 then ⟨.exception, init⟩
  else if SETUPDIR_COMPONENTS.isSuffixOf cwd = true then
    match scanList env init init.setup with
    | .crashed s => ⟨.exception, s⟩
    | .ok st => finalGate st
  else ⟨.fatal, init⟩

/-- Effect of a recorded event on the Setup directory listing, used to replay
intermediate states of a rename.  The extractor's own filesystem effect
depends on the environment and is irrelevant to the renames examined here. -/
def applyEv (setup : List String) : Ev → List String
  | .replaceSetup src dst => insertName dst (setup.erase src)
  | .extractCall => setup
  | .moveMemcard n => setup.erase n
  | .removeBios _ => setup
  | .moveIsoOut => setup.erase ISO_NAME
  | .moveElfOut => setup.erase ELF_NAME
  | .moveBiosIn n => setup.erase n
  | .removeSetup n => setup.erase n
  | .renameSetup src dst => insertName dst (setup.erase src)

/-- The overwrite as the specification describes it: delete any pre-existing
file at the target name, then rename.  Written from the spec's words, for
comparison with the implementation's `renameToCanonical`. -/
def specDeleteThenRename (file : String) : List Ev :=
  [.removeSetup ISO_NAME, .renameSetup file ISO_NAME]

/-! ### Concrete fixtures used by counterexamples and witnesses -/

/-- A checksum value different from `ISO_CHECKSUM`. -/
def badChecksum : String := "0000000000000000"

/-- Environment in which every file has the expected checksum and extraction
works. -/
def envAllGood : Env := ⟨fun _ => ISO_CHECKSUM, true, true⟩

/-- Environment in which no file has the expected checksum. -/
def envAllBad : Env := ⟨fun _ => badChecksum, true, true⟩

/-- Environment in which only `b.iso` has the expected checksum. -/
def envSecondGood : Env :=
  ⟨fun f => if f = "b.iso" then ISO_CHECKSUM else badChecksum, true, true⟩

/-- Environment with valid checksums but a failing extractor subprocess. -/
def envExtractFail : Env := ⟨fun _ => ISO_CHECKSUM, false, true⟩

/-- Fresh initial state over a given Setup directory listing. -/
def mkSt (l : List String) : St := ⟨l, [], [], false, "none", []⟩

/-- A working directory at the required location. -/
def cwdOk : List String := ["C", "Games", "P3F Mods", "Setup"]

/-! ### String and list helper lemmas -/

theorem data_append (a b : String) : (a ++ b).data = a.data ++ b.data := by
  cases a; cases b; rfl

theorem endswith_iff {s suf : String} : endswith s suf = true ↔ suf.data <:+ s.data := by
  unfold endswith; exact List.isSuffixOf_iff_suffix

theorem endswith_append (t suf : String) : endswith (t ++ suf) suf = true := by
  rw [endswith_iff, data_append]
  exact List.suffix_append _ _

theorem endswith_append_ne (s t suf : String) (hlen : t.data.length = suf.data.length)
    (hne : t.data ≠ suf.data) : endswith (s ++ t) suf = false := by
  cases hb : endswith (s ++ t) suf with
  | false => rfl
  | true =>
    rw [endswith_iff, data_append] at hb
    obtain ⟨u, hu⟩ := hb
    obtain ⟨-, h2⟩ := List.append_inj' hu (by rw [hlen])
    exact absurd h2.symm hne

theorem not_iso_of_bin {b : String} (h : endswith b ".bin" = true) :
    endswith (lower b) ".iso" = false := by
  rw [endswith_iff] at h
  obtain ⟨t, ht⟩ := h
  cases hb : endswith (lower b) ".iso" with
  | false => rfl
  | true =>
    rw [endswith_iff] at hb
    obtain ⟨u, hu⟩ := hb
    have hldata : (lower b).data = t.map Char.toLower ++ ".bin".data := by
      show b.data.map Char.toLower = _
      rw [← ht, List.map_append]
      rfl
    rw [hldata] at hu
    obtain ⟨-, h2⟩ := List.append_inj' hu (by decide)
    exact absurd h2 (by decide)

theorem bin_ne_none {b : String} (h : endswith b ".bin" = true) : b ≠ "none" := by
  intro he
  rw [he] at h
  exact absurd h (by decide)

theorem mem_insertName_self (n : String) (l : List String) : n ∈ insertName n l := by
  unfold insertName; split
  · assumption
  · exact List.mem_cons_self n l

theorem mem_insertName_of_mem {a : String} (n : String) {l : List String} (h : a ∈ l) :
    a ∈ insertName n l := by
  unfold insertName; split
  · exact h
  · exact List.mem_cons_of_mem n h

/-! ### Operation shape lemmas -/

theorem replaceSetupOp_mem {st : St} {src : String} (dst : String) (h : src ∈ st.setup) :
    replaceSetupOp st src dst =
      Res.ok { st with setup := insertName dst (st.setup.erase src),
                       events := st.events ++ [Ev.replaceSetup src dst] } := by
  unfold replaceSetupOp; rw [if_pos h]

theorem extractOp_success {env : Env} (st : St) (h1 : env.extractExitZero = true)
    (h2 : env.extractProduces = true) :
    extractOp env st =
      Res.ok { st with setup := insertName SLUS_NAME st.setup,
                       events := st.events ++ [Ev.extractCall] } := by
  unfold extractOp
  rw [h1, h2]
  rfl

theorem extractOp_fail {env : Env} (st : St) (h : env.extractExitZero = false) :
    extractOp env st = Res.crashed { st with events := st.events ++ [Ev.extractCall] } := by
  unfold extractOp
  rw [h]
  rfl

theorem moveOutOp_ok {st st2 : St} {name : String} {e : Ev}
    (h : moveOutOp st name e = Res.ok st2) :
    st2.events = st.events ++ [e] ∧ st2.bios = st.bios := by
  unfold moveOutOp at h
  split at h
  · cases h; exact ⟨rfl, rfl⟩
  · cases h

theorem moveOutOp_crashed {st s : St} {name : String} {e : Ev}
    (h : moveOutOp st name e = Res.crashed s) : s = st := by
  unfold moveOutOp at h
  split at h
  · cases h
  · cases h; rfl

theorem moveBiosInOp_ok {st st2 : St} {name : String}
    (h : moveBiosInOp st name = Res.ok st2) :
    st2.events = st.events ++ [Ev.moveBiosIn name] := by
  unfold moveBiosInOp at h
  split at h
  · cases h; rfl
  · cases h

theorem moveBiosInOp_crashed {st s : St} {name : String}
    (h : moveBiosInOp st name = Res.crashed s) : s = st := by
  unfold moveBiosInOp at h
  split at h
  · cases h
  · cases h; rfl

/-! ### Scan-loop invariants -/

/-- `st2` extends `st`'s event trace only with events satisfying `P`. -/
def appendsOnly (P : Ev → Prop) (st st2 : St) : Prop :=
  ∃ δ, st2.events = st.events ++ δ ∧ ∀ e ∈ δ, P e

theorem appendsOnly_refl (P : Ev → Prop) (st : St) : appendsOnly P st st :=
  ⟨[], by simp, by simp⟩

theorem appendsOnly_trans {P : Ev → Prop} {a b c : St}
    (h1 : appendsOnly P a b) (h2 : appendsOnly P b c) : appendsOnly P a c := by
  obtain ⟨d1, he1, hp1⟩ := h1
  obtain ⟨d2, he2, hp2⟩ := h2
  refine ⟨d1 ++ d2, by rw [he2, he1, List.append_assoc], ?_⟩
  intro e he
  rcases List.mem_append.mp he with h | h
  · exact hp1 e h
  · exact hp2 e h

/-- The scan loop leaves the BIOS directory alone and emits only scan-loop
events (no BIOS removal, no BIOS move-in). -/
def biosClean (st st2 : St) : Prop :=
  st2.bios = st.bios ∧ appendsOnly (fun e => e.isScanEv = true) st st2

theorem biosClean_refl (st : St) : biosClean st st :=
  ⟨rfl, appendsOnly_refl _ st⟩

theorem biosClean_trans {a b c : St} (h1 : biosClean a b) (h2 : biosClean b c) :
    biosClean a c :=
  ⟨h2.1.trans h1.1, appendsOnly_trans h1.2 h2.2⟩

theorem replaceSetupOp_inv (st : St) (src dst : String) :
    biosClean st (replaceSetupOp st src dst).state ∧
    (replaceSetupOp st src dst).state.found_bios = st.found_bios ∧
    (replaceSetupOp st src dst).state.found_iso = st.found_iso := by
  unfold replaceSetupOp
  split
  · exact ⟨⟨rfl, [Ev.replaceSetup src dst], rfl, by simp [Ev.isScanEv]⟩, rfl, rfl⟩
  · exact ⟨biosClean_refl st, rfl, rfl⟩

theorem renameToCanonical_inv (st : St) (file : String) :
    biosClean st (renameToCanonical st file).state ∧
    (renameToCanonical st file).state.found_bios = st.found_bios ∧
    (renameToCanonical st file).state.found_iso = st.found_iso := by
  unfold renameToCanonical
  split
  · exact ⟨biosClean_refl st, rfl, rfl⟩
  · exact replaceSetupOp_inv st file ISO_NAME

theorem extractOp_inv (env : Env) (st : St) :
    biosClean st (extractOp env st).state ∧
    (extractOp env st).state.found_bios = st.found_bios ∧
    (extractOp env st).state.found_iso = st.found_iso := by
  unfold extractOp
  split
  · split
    · exact ⟨⟨rfl, [Ev.extractCall], rfl, by simp [Ev.isScanEv]⟩, rfl, rfl⟩
    · exact ⟨⟨rfl, [Ev.extractCall], rfl, by simp [Ev.isScanEv]⟩, rfl, rfl⟩
  · exact ⟨⟨rfl, [Ev.extractCall], rfl, by simp [Ev.isScanEv]⟩, rfl, rfl⟩

theorem moveMemOp_inv (st : St) (name : String) :
    biosClean st (moveMemOp st name).state ∧
    (moveMemOp st name).state.found_bios = st.found_bios ∧
    (moveMemOp st name).state.found_iso = st.found_iso := by
  unfold moveMemOp
  split
  · exact ⟨⟨rfl, [Ev.moveMemcard name], rfl, by simp [Ev.isScanEv]⟩, rfl, rfl⟩
  · exact ⟨biosClean_refl st, rfl, rfl⟩

theorem isoBranch_inv (env : Env) (st : St) (file : String) :
    biosClean st (isoBranch env st file).state ∧
    (isoBranch env st file).state.found_bios = st.found_bios := by
  unfold isoBranch
  split
  · cases h1 : renameToCanonical st file with
    | crashed s =>
      have hv := renameToCanonical_inv st file
      rw [h1] at hv
      exact ⟨hv.1, hv.2.1⟩
    | ok s1 =>
      have hv1 := renameToCanonical_inv st file
      rw [h1] at hv1
      dsimp only
      cases h2 : extractOp env s1 with
      | crashed s =>
        have hv2 := extractOp_inv env s1
        rw [h2] at hv2
        exact ⟨biosClean_trans hv1.1 hv2.1, hv2.2.1.trans hv1.2.1⟩
      | ok s2 =>
        have hv2 := extractOp_inv env s1
        rw [h2] at hv2
        dsimp only
        cases h3 : replaceSetupOp s2 SLUS_NAME ELF_NAME with
        | crashed s =>
          have hv3 := replaceSetupOp_inv s2 SLUS_NAME ELF_NAME
          rw [h3] at hv3
          exact ⟨biosClean_trans (biosClean_trans hv1.1 hv2.1) hv3.1,
                 (hv3.2.1.trans hv2.2.1).trans hv1.2.1⟩
        | ok s3 =>
          have hv3 := replaceSetupOp_inv s2 SLUS_NAME ELF_NAME
          rw [h3] at hv3
          refine ⟨biosClean_trans (biosClean_trans hv1.1 hv2.1)
            (biosClean_trans hv3.1 ⟨rfl, appendsOnly_refl _ _⟩), ?_⟩
          exact (hv3.2.1.trans hv2.2.1).trans hv1.2.1
  · exact ⟨biosClean_refl st, rfl⟩

theorem scanStep_biosClean (env : Env) (st : St) (f : String) :
    biosClean st (scanStep env st f).state := by
  unfold scanStep
  split
  · exact (isoBranch_inv env st f).1
  · split
    · exact ⟨rfl, appendsOnly_refl _ _⟩
    · split
      · exact ⟨rfl, appendsOnly_refl _ _⟩
      · split
        · exact (moveMemOp_inv st f).1
        · exact biosClean_refl st

theorem scanStep_found_bios_ne (env : Env) (st : St) (f : String)
    (h : st.found_bios ≠ "none") :
    (scanStep env st f).state.found_bios = st.found_bios := by
  unfold scanStep
  split
  · exact (isoBranch_inv env st f).2
  · split
    · case isTrue h2 => exact absurd h2.2 h
    · split
      · case isTrue h3 => exact absurd h3.2 h
      · split
        · exact (moveMemOp_inv st f).2.1
        · rfl

theorem scanStep_found_bios_nofw (env : Env) (st : St) (f : String)
    (hb : endswith f ".bin" = false) (hm : endswith f ".mec" = false) :
    (scanStep env st f).state.found_bios = st.found_bios := by
  unfold scanStep
  split
  · exact (isoBranch_inv env st f).2
  · split
    · case isTrue h2 => rw [hb] at h2; cases h2.1
    · split
      · case isTrue h3 => rw [hm] at h3; cases h3.1
      · split
        · exact (moveMemOp_inv st f).2.1
        · rfl

theorem scanStep_found_iso_false (env : Env) (st : St) (f : String)
    (h : st.found_iso = false)
    (hbad : endswith (lower f) ".iso" = true → env.checksumOf f ≠ ISO_CHECKSUM) :
    (scanStep env st f).state.found_iso = false := by
  unfold scanStep
  split
  · case isTrue hc =>
    unfold isoBranch
    rw [if_neg (hbad hc.1)]
    exact h
  · split
    · exact h
    · split
      · exact h
      · split
        · exact (moveMemOp_inv st f).2.2.trans h
        · exact h

theorem scanList_biosClean (env : Env) (fs : List String) (st : St) :
    biosClean st (scanList env st fs).state := by
  induction fs generalizing st with
  | nil => exact biosClean_refl st
  | cons f fs ih =>
    simp only [scanList]
    cases hr : scanStep env st f with
    | ok st1 =>
      have h1 := scanStep_biosClean env st f
      rw [hr] at h1
      exact biosClean_trans h1 (ih st1)
    | crashed s =>
      have h1 := scanStep_biosClean env st f
      rw [hr] at h1
      exact h1

theorem scanList_found_bios_ne (env : Env) (fs : List String) (st : St)
    (h : st.found_bios ≠ "none") :
    (scanList env st fs).state.found_bios = st.found_bios := by
  induction fs generalizing st with
  | nil => rfl
  | cons f fs ih =>
    simp only [scanList]
    cases hr : scanStep env st f with
    | ok st1 =>
      have h1 := scanStep_found_bios_ne env st f h
      rw [hr] at h1
      have h1' : st1.found_bios = st.found_bios := h1
      have h2 := ih st1 (by rw [h1']; exact h)
      exact h2.trans h1'
    | crashed s =>
      have h1 := scanStep_found_bios_ne env st f h
      rw [hr] at h1
      exact h1

theorem scanList_found_iso_false (env : Env) (fs : List String) (st : St)
    (h : st.found_iso = false)
    (hbad : ∀ f ∈ fs, endswith (lower f) ".iso" = true → env.checksumOf f ≠ ISO_CHECKSUM) :
    (scanList env st fs).state.found_iso = false := by
  induction fs generalizing st with
  | nil => exact h
  | cons f fs ih =>
    simp only [scanList]
    cases hr : scanStep env st f with
    | ok st1 =>
      have h1 := scanStep_found_iso_false env st f h (hbad f (List.mem_cons_self f fs))
      rw [hr] at h1
      exact ih st1 h1 (fun g hg => hbad g (List.mem_cons_of_mem f hg))
    | crashed s =>
      have h1 := scanStep_found_iso_false env st f h (hbad f (List.mem_cons_self f fs))
      rw [hr] at h1
      exact h1

theorem scanList_found_bios_nofw (env : Env) (fs : List String) (st st' : St)
    (hok : scanList env st fs = Res.ok st')
    (hno : ∀ f ∈ fs, endswith f ".bin" = false ∧ endswith f ".mec" = false) :
    st'.found_bios = st.found_bios := by
  induction fs generalizing st with
  | nil =>
    cases hok
    rfl
  | cons f fs ih =>
    simp only [scanList] at hok
    cases hr : scanStep env st f with
    | ok st1 =>
      rw [hr] at hok
      have h1 := scanStep_found_bios_nofw env st f (hno f (List.mem_cons_self f fs)).1
        (hno f (List.mem_cons_self f fs)).2
      rw [hr] at h1
      exact (ih st1 hok (fun g hg => hno g (List.mem_cons_of_mem f hg))).trans h1
    | crashed s =>
      rw [hr] at hok
      cases hok

theorem scanList_append (env : Env) (xs ys : List String) (st : St) :
    scanList env st (xs ++ ys) =
      match scanList env st xs with
      | .ok s => scanList env s ys
      | .crashed s => .crashed s := by
  induction xs generalizing st with
  | nil => simp [scanList]
  | cons f fs ih =>
    simp only [List.cons_append, scanList]
    cases scanStep env st f <;> simp [ih]

theorem moveLoose_events (base : String) (fs : List String) (st : St) :
    appendsOnly (fun e => ∃ n, e = Ev.moveBiosIn n) st (moveLoose base st fs).state := by
  induction fs generalizing st with
  | nil => exact appendsOnly_refl _ st
  | cons f fs ih =>
    simp only [moveLoose]
    split
    · cases hr : moveBiosInOp st f with
      | ok st1 =>
        have h1 : appendsOnly (fun e => ∃ n, e = Ev.moveBiosIn n) st st1 :=
          ⟨[Ev.moveBiosIn f], moveBiosInOp_ok hr, by simp⟩
        exact appendsOnly_trans h1 (ih st1)
      | crashed s =>
        rw [moveBiosInOp_crashed hr]
        exact appendsOnly_refl _ st
    · exact ih st

theorem lower_append_endswith (s t low : String) (hlow : t.data.map Char.toLower = low.data) :
    endswith (lower (s ++ t)) low = true := by
  rw [endswith_iff]
  show low.data <:+ (s ++ t).data.map Char.toLower
  rw [data_append, List.map_append, hlow]
  exact List.suffix_append _ _

/-! ### Claim C1 -/

/-- C1: counterexample.  The claim says that when the first `.iso` file fails
checksum validation, `found_iso` remains false and no later `.iso` file in the
same scan is processed.  In the listing `["a.iso", "b.iso"]` where only
`b.iso` has the expected checksum, the first `.iso` fails validation, yet the
scan processes `b.iso` (the extractor is invoked) and ends with
`found_iso = true`: the guard `found_iso == False` does not block later disc
images after a mismatch. -/
theorem c1_counterexample :
    endswith (lower "a.iso") ".iso" = true ∧
    envSecondGood.checksumOf "a.iso" ≠ ISO_CHECKSUM ∧
    envSecondGood.checksumOf "b.iso" = ISO_CHECKSUM ∧
    (scanList envSecondGood (mkSt ["a.iso", "b.iso"]) ["a.iso", "b.iso"]).state.found_iso
      = true ∧
    Ev.extractCall ∈
      (scanList envSecondGood (mkSt ["a.iso", "b.iso"]) ["a.iso", "b.iso"]).state.events :=
  ⟨by decide, by decide, rfl, by decide, by decide⟩

/-- C1 (amended): after a checksum mismatch the scan keeps retrying later
`.iso` files; `found_iso` stays false for the whole scan exactly in the runs
where every `.iso` file in the listing fails checksum validation. -/
theorem c1_all_bad_checksums (env : Env) (st : St) (fs : List String)
    (hiso : st.found_iso = false)
    (hbad : ∀ f ∈ fs, endswith (lower f) ".iso" = true → env.checksumOf f ≠ ISO_CHECKSUM) :
    (scanList env st fs).state.found_iso = false :=
  scanList_found_iso_false env fs st hiso hbad

/-- C1 witness: a concrete scan in which every `.iso` checksum is wrong. -/
theorem c1_witness :
    (scanList envAllBad (mkSt ["a.iso", "readme.txt"]) ["a.iso", "readme.txt"]).state.found_iso
      = false :=
  c1_all_bad_checksums envAllBad (mkSt ["a.iso", "readme.txt"]) ["a.iso", "readme.txt"]
    rfl (by decide)

/-! ### Claim C2 -/

/-- C2: counterexample.  The claim says that whenever a `.bin` file and
`.mec`-prefixed files are both present, the `.bin` wins **for every listing
order**.  With the listing order `["scph.mec", "bios.bin"]` the `.mec` branch
fires first and records the base name `scph`; the `.bin` file does not win. -/
theorem c2_counterexample :
    endswith "bios.bin" ".bin" = true ∧
    endswith "scph.mec" ".mec" = true ∧
    (scanList envAllBad (mkSt ["scph.mec", "bios.bin"]) ["scph.mec", "bios.bin"]).state.found_bios
      = "scph" ∧
    ("scph" : String) ≠ "bios.bin" :=
  ⟨by decide, by decide, by decide, by decide⟩

/-- C2 (amended): the first firmware candidate in listing order wins.  If the
`.bin` file appears before every `.mec` candidate (no earlier file matches the
`.bin` or `.mec` branch), the scan records the `.bin` file in `found_bios` and
the `.mec` branch is skipped for the rest of the run. -/
theorem c2_first_firmware_wins (env : Env) (st0 st : St) (pre post : List String)
    (b : String)
    (h0 : st0.found_bios = "none")
    (hpre : scanList env st0 pre = Res.ok st)
    (hno : ∀ f ∈ pre, endswith f ".bin" = false ∧ endswith f ".mec" = false)
    (hb : endswith b ".bin" = true) :
    (scanList env st0 (pre ++ b :: post)).state.found_bios = b := by
  simp only [scanList_append, hpre]
  have hstb : st.found_bios = "none" :=
    (scanList_found_bios_nofw env pre st0 st hpre hno).trans h0
  have hniso : ¬(endswith (lower b) ".iso" = true ∧ st.found_iso = false) := by
    rintro ⟨hi, -⟩
    rw [not_iso_of_bin hb] at hi
    cases hi
  have hstep : scanStep env st b = Res.ok { st with found_bios := b } := by
    unfold scanStep
    rw [if_neg hniso, if_pos ⟨hb, hstb⟩]
  simp only [scanList, hstep]
  exact scanList_found_bios_ne env post { st with found_bios := b } (bin_ne_none hb)

/-- C2 witness: the `.bin` file precedes the `.mec` file, so it wins. -/
theorem c2_witness :
    (scanList envAllBad (mkSt ["readme.txt", "bios.bin", "scph.mec"])
      ["readme.txt", "bios.bin", "scph.mec"]).state.found_bios = "bios.bin" :=
  c2_first_firmware_wins envAllBad (mkSt ["readme.txt", "bios.bin", "scph.mec"])
    (mkSt ["readme.txt", "bios.bin", "scph.mec"]) ["readme.txt"] ["scph.mec"] "bios.bin"
    rfl (by decide) (by decide) (by decide)

/-! ### Claim C6 -/

/-- C6: if the working directory's component list does not end with
`P3F Mods/Setup`, the run terminates before the scan with the initial state
untouched — no directory scan, no filesystem event.  With at least two
ancestors this is the `fatal_error` path of the location check; with fewer,
`SETUP_DIR.parents` indexing raises an uncaught `IndexError`, still before any
scan. -/
theorem c6_wrong_location (cwd : List String) (env : Env) (init : St)
    (h : SETUPDIR_COMPONENTS.isSuffixOf cwd = false) :
    (run cwd env init).st = init ∧
    (run cwd env init).outcome ≠ Outcome.success ∧
    (2 ≤ cwd.length → (run cwd env init).outcome = Outcome.fatal) ∧
    (cwd.length < 2 → (run cwd env init).outcome = Outcome.exception) := by
  unfold run
  split
  case isTrue hlt =>
    refine ⟨rfl, ?_, fun hge => absurd hlt (Nat.not_lt.mpr hge), fun _ => rfl⟩
    intro hc
    cases hc
  case isFalse hge =>
    rw [if_neg (by simp [h])]
    refine ⟨rfl, ?_, fun _ => rfl, fun hlt => absurd hlt hge⟩
    intro hc
    cases hc

/-- C6 witness: a mislocated two-component working directory. -/
theorem c6_witness :
    (run ["Wrong", "Place"] envAllGood (mkSt ["a.iso"])).st = mkSt ["a.iso"] ∧
    (run ["Wrong", "Place"] envAllGood (mkSt ["a.iso"])).outcome ≠ Outcome.success ∧
    (2 ≤ (["Wrong", "Place"] : List String).length →
      (run ["Wrong", "Place"] envAllGood (mkSt ["a.iso"])).outcome = Outcome.fatal) ∧
    ((["Wrong", "Place"] : List String).length < 2 →
      (run ["Wrong", "Place"] envAllGood (mkSt ["a.iso"])).outcome = Outcome.exception) :=
  c6_wrong_location ["Wrong", "Place"] envAllGood (mkSt ["a.iso"]) (by decide)

/-! ### Claim C8 -/

/-- C8: extension matching is case-insensitive for disc images — the `.iso`
test lowercases the name first, so every letter-case of `.iso` matches — but
case-sensitive for `.bin`, `.mec` and `.ps2`; concretely, the scan ignores
`BIOS.BIN` and `CARD.PS2` while `DISC.ISO` is processed as a disc image, and
the lowercase `bios.bin` and `card.ps2` are classified normally. -/
theorem c8_case_sensitivity :
    (∀ s : String, endswith (lower (s ++ ".ISO")) ".iso" = true ∧
      endswith (lower (s ++ ".iso")) ".iso" = true) ∧
    (∀ s : String, endswith (s ++ ".BIN") ".bin" = false ∧
      endswith (s ++ ".MEC") ".mec" = false ∧
      endswith (s ++ ".PS2") ".ps2" = false) ∧
    scanStep envAllGood (mkSt ["BIOS.BIN", "CARD.PS2"]) "BIOS.BIN"
      = Res.ok (mkSt ["BIOS.BIN", "CARD.PS2"]) ∧
    scanStep envAllGood (mkSt ["BIOS.BIN", "CARD.PS2"]) "CARD.PS2"
      = Res.ok (mkSt ["BIOS.BIN", "CARD.PS2"]) ∧
    (scanStep envAllGood (mkSt ["DISC.ISO"]) "DISC.ISO").state.found_iso = true ∧
    (scanStep envAllGood (mkSt ["bios.bin"]) "bios.bin").state.found_bios = "bios.bin" ∧
    (scanStep envAllGood (mkSt ["card.ps2"]) "card.ps2").state.mem = ["card.ps2"] := by
  refine ⟨?_, ?_, by decide, by decide, by decide, by decide, by decide⟩
  · intro s
    exact ⟨lower_append_endswith s ".ISO" ".iso" (by decide),
           lower_append_endswith s ".iso" ".iso" (by decide)⟩
  · intro s
    exact ⟨endswith_append_ne s ".BIN" ".bin" (by decide) (by decide),
           endswith_append_ne s ".MEC" ".mec" (by decide) (by decide),
           endswith_append_ne s ".PS2" ".ps2" (by decide) (by decide)⟩

/-! ### Claim C10 -/

/-- C10: once `found_bios` holds a value other than `none`, no later scan
iteration changes it — both firmware branches are guarded by
`found_bios == 'none'` and nothing else writes the flag. -/
theorem c10_found_bios_stable (env : Env) (st : St) (fs : List String)
    (h : st.found_bios ≠ "none") :
    (scanList env st fs).state.found_bios = st.found_bios :=
  scanList_found_bios_ne env fs st h

/-- Initial state for the C10 witness: firmware already recorded. -/
def stW10 : St := ⟨["late.mec", "late2.bin"], [], [], false, "early.bin", []⟩

/-- C10 witness: later `.mec` and `.bin` files do not overwrite the recorded
firmware. -/
theorem c10_witness :
    (scanList envAllBad stW10 ["late.mec", "late2.bin"]).state.found_bios
      = stW10.found_bios :=
  c10_found_bios_stable envAllBad stW10 ["late.mec", "late2.bin"] (by decide)

/-! ### Claim C3 -/

/-- The state at which the run with a failing extractor raises: `a.iso` has
been renamed, the subprocess has been invoked, and `CalledProcessError`
propagates. -/
def stCrash : St :=
  ⟨["P3F.iso"], [], [], false, "none",
    [Ev.replaceSetup "a.iso" "P3F.iso", Ev.extractCall]⟩

/-- C3: counterexample.  The claim says a non-zero extractor exit makes the
program terminate through the fatal-diagnostic path (message naming the log
file, blocking acknowledgment).  The script wraps `subprocess.check_call` in
no handler, so `CalledProcessError` propagates and the process dies with an
uncaught exception — `fatal_error` is never called. -/
theorem c3_counterexample :
    envExtractFail.extractExitZero = false ∧
    (run cwdOk envExtractFail (mkSt ["a.iso"])).outcome = Outcome.exception ∧
    Outcome.exception ≠ Outcome.fatal :=
  ⟨rfl, by decide, by decide⟩

/-- C3 (amended): a non-zero extractor exit raises inside the `.iso` branch
right after the subprocess call and the exception propagates uncaught: the
scan crashes and the run ends with the `exception` outcome, never reaching the
`fatal_error` diagnostic-and-prompt path. -/
theorem c3_uncaught_subprocess_error :
    (∀ env st file, env.extractExitZero = false →
      env.checksumOf file = ISO_CHECKSUM →
      endswith (lower file) ".iso" = true → st.found_iso = false → file ∈ st.setup →
      ∃ s, scanStep env st file = Res.crashed s ∧
        s.events = st.events ++ (if file = ISO_NAME then [] else [Ev.replaceSetup file ISO_NAME])
          ++ [Ev.extractCall]) ∧
    (∀ cwd env init s, 2 ≤ cwd.length → SETUPDIR_COMPONENTS.isSuffixOf cwd = true →
      scanList env init init.setup = Res.crashed s →
      run cwd env init = ⟨Outcome.exception, s⟩) := by
  constructor
  · intro env st file hexit hsum hmatch hflag hmem
    unfold scanStep
    rw [if_pos ⟨hmatch, hflag⟩]
    unfold isoBranch
    rw [if_pos hsum]
    unfold renameToCanonical
    by_cases hf : file = ISO_NAME
    · rw [if_pos hf]
      dsimp only
      rw [extractOp_fail st hexit]
      refine ⟨_, rfl, ?_⟩
      rw [if_pos hf]
      simp
    · rw [if_neg hf, replaceSetupOp_mem ISO_NAME hmem]
      dsimp only
      rw [extractOp_fail _ hexit]
      refine ⟨_, rfl, ?_⟩
      rw [if_neg hf]
  · intro cwd env init s hlen hsuf hcr
    unfold run
    rw [if_neg (Nat.not_lt.mpr hlen), if_pos hsuf, hcr]

/-- C3 witness: concrete failing-extractor run. -/
theorem c3_witness :
    (∃ s, scanStep envExtractFail (mkSt ["a.iso"]) "a.iso" = Res.crashed s ∧
      s.events = (mkSt ["a.iso"]).events ++
        (if ("a.iso" : String) = ISO_NAME then [] else [Ev.replaceSetup "a.iso" ISO_NAME])
        ++ [Ev.extractCall]) ∧
    run cwdOk envExtractFail (mkSt ["a.iso"]) = ⟨Outcome.exception, stCrash⟩ :=
  ⟨c3_uncaught_subprocess_error.1 envExtractFail (mkSt ["a.iso"]) "a.iso"
      rfl rfl (by decide) rfl (by decide),
   c3_uncaught_subprocess_error.2 cwdOk envExtractFail (mkSt ["a.iso"]) stCrash
      (by decide) (by decide) (by decide)⟩

/-! ### Claim C4 -/

/-- C4: in the checksum-success branch with a working extractor, the disc
image is renamed to `P3F.iso` when its name differs (and only then), the
extractor is invoked, the extracted `SLUS_216.21` is renamed to
`SLUS_216.21.elf`, and `found_iso` is set to true exactly when both canonical
files exist afterwards — which they then do. -/
theorem c4_checksum_success (env : Env) (st : St) (file : String)
    (hmatch : endswith (lower file) ".iso" = true)
    (hflag : st.found_iso = false)
    (hsum : env.checksumOf file = ISO_CHECKSUM)
    (hexit : env.extractExitZero = true)
    (hprod : env.extractProduces = true)
    (hmem : file ∈ st.setup) :
    ∃ st2, scanStep env st file = Res.ok st2 ∧
      st2.events = st.events ++ (if file = ISO_NAME then [] else [Ev.replaceSetup file ISO_NAME])
        ++ [Ev.extractCall, Ev.replaceSetup SLUS_NAME ELF_NAME] ∧
      st2.found_iso = decide (ISO_NAME ∈ st2.setup ∧ ELF_NAME ∈ st2.setup) ∧
      st2.found_iso = true := by
  unfold scanStep
  rw [if_pos ⟨hmatch, hflag⟩]
  unfold isoBranch
  rw [if_pos hsum]
  unfold renameToCanonical
  by_cases hf : file = ISO_NAME
  · rw [if_pos hf]
    dsimp only
    rw [extractOp_success st hexit hprod]
    dsimp only
    rw [replaceSetupOp_mem ELF_NAME (mem_insertName_self _ _)]
    dsimp only
    refine ⟨_, rfl, ?_, rfl, ?_⟩
    · rw [if_pos hf]
      simp
    · have hISO : ISO_NAME ∈ st.setup := hf ▸ hmem
      exact decide_eq_true
        ⟨mem_insertName_of_mem ELF_NAME
          ((List.mem_erase_of_ne (by decide)).mpr (mem_insertName_of_mem SLUS_NAME hISO)),
         mem_insertName_self ELF_NAME _⟩
  · rw [if_neg hf, replaceSetupOp_mem ISO_NAME hmem]
    dsimp only
    rw [extractOp_success _ hexit hprod]
    dsimp only
    rw [replaceSetupOp_mem ELF_NAME (mem_insertName_self _ _)]
    dsimp only
    refine ⟨_, rfl, ?_, rfl, ?_⟩
    · rw [if_neg hf]
      simp
    · exact decide_eq_true
        ⟨mem_insertName_of_mem ELF_NAME
          ((List.mem_erase_of_ne (by decide)).mpr
            (mem_insertName_of_mem SLUS_NAME (mem_insertName_self ISO_NAME _))),
         mem_insertName_self ELF_NAME _⟩

/-- C4 witness: a valid `game.iso` is staged and `found_iso` becomes true. -/
theorem c4_witness :
    ∃ st2, scanStep envAllGood (mkSt ["game.iso"]) "game.iso" = Res.ok st2 ∧
      st2.events = (mkSt ["game.iso"]).events ++
        (if ("game.iso" : String) = ISO_NAME then [] else [Ev.replaceSetup "game.iso" ISO_NAME])
        ++ [Ev.extractCall, Ev.replaceSetup SLUS_NAME ELF_NAME] ∧
      st2.found_iso = decide (ISO_NAME ∈ st2.setup ∧ ELF_NAME ∈ st2.setup) ∧
      st2.found_iso = true :=
  c4_checksum_success envAllGood (mkSt ["game.iso"]) "game.iso"
    (by decide) rfl rfl rfl rfl (by decide)

/-! ### Claim C7 -/

/-- Initial state for the C7 analysis: the canonical target name already
exists alongside the disc image about to be renamed. -/
def stRename : St := ⟨["game.iso", "P3F.iso"], [], [], false, "none", []⟩

/-- The state after the implementation's rename of `game.iso`. -/
def stRenamed : St :=
  ⟨["P3F.iso"], [], [], false, "none", [Ev.replaceSetup "game.iso" "P3F.iso"]⟩

/-- C7: counterexample.  The claim says the rename-to-canonical overwrites by
delete-then-rename, with an intermediate state in which the target is absent.
The implementation uses `os.replace`: its rename emits exactly one
rename-or-replace event — not the spec's delete-then-rename pair — and
replaying it from a listing already containing `P3F.iso` passes through no
state lacking `P3F.iso`, whereas replaying the spec's two-step sequence
does. -/
theorem c7_counterexample :
    (∃ st2, renameToCanonical stRename "game.iso" = Res.ok st2 ∧
      st2.events = [Ev.replaceSetup "game.iso" ISO_NAME]) ∧
    (List.scanl applyEv stRename.setup [Ev.replaceSetup "game.iso" ISO_NAME]).all
      (fun l => l.contains ISO_NAME) = true ∧
    [Ev.replaceSetup "game.iso" ISO_NAME] ≠ specDeleteThenRename "game.iso" ∧
    (List.scanl applyEv stRename.setup (specDeleteThenRename "game.iso")).all
      (fun l => l.contains ISO_NAME) = false :=
  ⟨⟨_, rfl, by decide⟩, by decide, by decide, by decide⟩

/-- C7 (amended): each rename-to-canonical step is a single `os.replace`
event, atomic in the embedding; when a file with the target name already
exists, every intermediate state of the operation still contains the target,
and the target exists afterwards — there is no deletion window. -/
theorem c7_atomic_replace (st st2 : St) (src dst : String)
    (h : replaceSetupOp st src dst = Res.ok st2) (hdst : dst ∈ st.setup) :
    st2.events = st.events ++ [Ev.replaceSetup src dst] ∧
    st2.setup = applyEv st.setup (Ev.replaceSetup src dst) ∧
    (∀ l ∈ List.scanl applyEv st.setup [Ev.replaceSetup src dst], dst ∈ l) ∧
    dst ∈ st2.setup := by
  unfold replaceSetupOp at h
  split at h
  · cases h
    refine ⟨rfl, rfl, ?_, mem_insertName_self dst _⟩
    intro l hl
    simp only [List.scanl, List.mem_cons, List.not_mem_nil, or_false] at hl
    rcases hl with rfl | rfl
    · exact hdst
    · exact mem_insertName_self dst _
  · cases h

/-- C7 witness: renaming `game.iso` over a pre-existing `P3F.iso`. -/
theorem c7_witness :
    stRenamed.events = stRename.events ++ [Ev.replaceSetup "game.iso" ISO_NAME] ∧
    stRenamed.setup = applyEv stRename.setup (Ev.replaceSetup "game.iso" ISO_NAME) ∧
    (∀ l ∈ List.scanl applyEv stRename.setup [Ev.replaceSetup "game.iso" ISO_NAME],
      ISO_NAME ∈ l) ∧
    ISO_NAME ∈ stRenamed.setup :=
  c7_atomic_replace stRename stRenamed "game.iso" ISO_NAME (by decide) (by decide)

/-! ### Claim C9 -/

/-- C9: the BIOS destination directory is touched only behind the final gate.
On a run in which the gate's flag test does not pass — scan aborted by an
exception, or `found_iso` false, or `found_bios` still `none` — the program
deletes nothing from and moves nothing into the BIOS directory, whose contents
end the run unchanged. -/
theorem c9_bios_untouched_on_failure (cwd : List String) (env : Env) (init : St)
    (hev : init.events = [])
    (hgate : gatePassed (scanList env init init.setup) = false) :
    (run cwd env init).st.bios = init.bios ∧
    (∀ n, Ev.removeBios n ∉ (run cwd env init).st.events) ∧
    (∀ n, Ev.moveBiosIn n ∉ (run cwd env init).st.events) := by
  unfold run
  split
  · refine ⟨rfl, ?_, ?_⟩ <;> intro n hmem <;>
      · have hmem2 : _ ∈ init.events := hmem
        rw [hev] at hmem2
        cases hmem2
  · split
    · cases hs : scanList env init init.setup with
      | crashed s =>
        have hbc := scanList_biosClean env init.setup init
        rw [hs] at hbc
        obtain ⟨hbios, δ, hδ, hall⟩ := hbc
        have hδ2 : s.events = init.events ++ δ := hδ
        refine ⟨hbios, ?_, ?_⟩ <;> intro n hmem <;>
          · have hmem2 : _ ∈ s.events := hmem
            rw [hδ2, hev, List.nil_append] at hmem2
            have hscan := hall _ hmem2
            simp [Ev.isScanEv] at hscan
      | ok st =>
        rw [hs] at hgate
        have hgate2 : (st.found_iso && !(st.found_bios == "none")) = false := hgate
        have hcond : ¬(st.found_iso = true ∧ st.found_bios ≠ "none") := by
          rintro ⟨h1, h2⟩
          rw [h1] at hgate2
          simp at hgate2
          exact h2 hgate2
        have hfg : finalGate st = ⟨Outcome.fatal, st⟩ := by
          unfold finalGate
          rw [if_neg hcond]
        have hbc := scanList_biosClean env init.setup init
        rw [hs] at hbc
        obtain ⟨hbios, δ, hδ, hall⟩ := hbc
        have hδ2 : st.events = init.events ++ δ := hδ
        refine ⟨?_, ?_, ?_⟩
        · show (finalGate st).st.bios = init.bios
          rw [hfg]
          exact hbios
        all_goals
          intro n hmem
          have hmem2 : _ ∈ (finalGate st).st.events := hmem
          rw [hfg] at hmem2
          have hmem3 : _ ∈ st.events := hmem2
          rw [hδ2, hev, List.nil_append] at hmem3
          have hscan := hall _ hmem3
          simp [Ev.isScanEv] at hscan
    · refine ⟨rfl, ?_, ?_⟩ <;> intro n hmem <;>
        · have hmem2 : _ ∈ init.events := hmem
          rw [hev] at hmem2
          cases hmem2

/-- Initial state for the C9 witness: the BIOS directory is non-empty and the
scan will find nothing. -/
def stW9 : St := ⟨["readme.txt"], ["old.bin"], [], false, "none", []⟩

/-- C9 witness: a run that fails the final gate leaves `old.bin` in place. -/
theorem c9_witness :
    (run cwdOk envAllBad stW9).st.bios = stW9.bios ∧
    (∀ n, Ev.removeBios n ∉ (run cwdOk envAllBad stW9).st.events) ∧
    (∀ n, Ev.moveBiosIn n ∉ (run cwdOk envAllBad stW9).st.events) :=
  c9_bios_untouched_on_failure cwdOk envAllBad stW9 rfl (by decide)

/-! ### Claim C5 -/

theorem c5_assemble (st : St) (es2 : List Ev)
    (hes2 : ∀ n, Ev.removeBios n ∉ es2) (evs : List Ev)
    (hevs : evs = (st.bios.filter globStarDotStar).map Ev.removeBios ++ es2) :
    evs = (st.bios.filter globStarDotStar).map Ev.removeBios ++ es2 ∧
    (∀ n, Ev.removeBios n ∉ es2) ∧
    (∀ f ∈ st.bios, globStarDotStar f = true →
      Ev.removeBios f ∈ (st.bios.filter globStarDotStar).map Ev.removeBios) ∧
    (∀ f ∈ st.bios, globStarDotStar f = false → Ev.removeBios f ∉ evs) ∧
    (∀ n, Ev.moveBiosIn n ∉ (st.bios.filter globStarDotStar).map Ev.removeBios) := by
  subst hevs
  refine ⟨rfl, hes2, ?_, ?_, ?_⟩
  · intro f hf hdot
    exact List.mem_map_of_mem _ (List.mem_filter.mpr ⟨hf, hdot⟩)
  · intro f hf hdot hmem
    rcases List.mem_append.mp hmem with hm | hm
    · rw [List.mem_map] at hm
      obtain ⟨g, hg, hgeq⟩ := hm
      injection hgeq with hgf
      subst hgf
      have hdot2 := (List.mem_filter.mp hg).2
      rw [hdot] at hdot2
      cases hdot2
    · exact hes2 f hm
  · intro n hmem
    rw [List.mem_map] at hmem
    obtain ⟨g, -, hg⟩ := hmem
    cases hg

/-- Post-scan state in which the BIOS directory holds only a file without a
dot in its name. -/
def stGateDotless : St :=
  ⟨["P3F.iso", "SLUS_216.21.elf", "bios.bin"], ["NODOT"], [], true, "bios.bin", []⟩

/-- C5: counterexample.  The claim says that when the gate passes and the
destination firmware directory is non-empty, **every** file in it is deleted.
The cleanup iterates `BIOS_DIR.glob('*.*')`, which matches only names
containing a dot: the run succeeds while the dot-less file `NODOT` is never
removed from the BIOS directory. -/
theorem c5_counterexample :
    stGateDotless.found_iso = true ∧ stGateDotless.found_bios ≠ "none" ∧
    stGateDotless.bios ≠ [] ∧ "NODOT" ∈ stGateDotless.bios ∧
    (finalGate stGateDotless).outcome = Outcome.success ∧
    "NODOT" ∈ (finalGate stGateDotless).st.bios ∧
    Ev.removeBios "NODOT" ∉ (finalGate stGateDotless).st.events :=
  ⟨rfl, by decide, by decide, by decide, by decide, by decide, by decide⟩

/-- C5 (amended): when the final gate passes and the BIOS directory is
non-empty, exactly the files whose names match `*.*` (contain a dot) are
deleted, and all of those deletions happen before any move: the run's event
trace is the block of `removeBios` events followed by a block containing no
deletion, and deletions never target dot-less names. -/
theorem c5_glob_removes_before_moves (st : St)
    (hiso : st.found_iso = true) (hbios : st.found_bios ≠ "none")
    (hne : st.bios ≠ []) (hev : st.events = []) :
    ∃ es2, (finalGate st).st.events
        = (st.bios.filter globStarDotStar).map Ev.removeBios ++ es2 ∧
      (∀ n, Ev.removeBios n ∉ es2) ∧
      (∀ f ∈ st.bios, globStarDotStar f = true →
        Ev.removeBios f ∈ (st.bios.filter globStarDotStar).map Ev.removeBios) ∧
      (∀ f ∈ st.bios, globStarDotStar f = false →
        Ev.removeBios f ∉ (finalGate st).st.events) ∧
      (∀ n, Ev.moveBiosIn n ∉ (st.bios.filter globStarDotStar).map Ev.removeBios) := by
  have hisEmpty : ¬(st.bios.isEmpty = true) := by
    intro hemp
    exact hne (List.isEmpty_iff.mp hemp)
  have hR : (removeBiosFiles st).events
      = (st.bios.filter globStarDotStar).map Ev.removeBios := by
    show st.events ++ _ = _
    rw [hev, List.nil_append]
  unfold finalGate
  rw [if_pos ⟨hiso, hbios⟩, if_neg hisEmpty]
  dsimp only
  cases h1 : moveOutOp (removeBiosFiles st) ISO_NAME Ev.moveIsoOut with
  | crashed s =>
    refine ⟨[], ?_⟩
    apply c5_assemble
    · intro n hmem
      cases hmem
    · show s.events = _
      rw [moveOutOp_crashed h1, hR, List.append_nil]
  | ok st2 =>
    have h1e := (moveOutOp_ok h1).1
    dsimp only
    cases h2 : moveOutOp st2 ELF_NAME Ev.moveElfOut with
    | crashed s =>
      refine ⟨[Ev.moveIsoOut], ?_⟩
      apply c5_assemble
      · intro n hmem
        simp at hmem
      · show s.events = _
        rw [moveOutOp_crashed h2, h1e, hR]
    | ok st3 =>
      have h2e := (moveOutOp_ok h2).1
      dsimp only
      split
      · cases h4 : moveBiosInOp st3 st.found_bios with
        | crashed s =>
          refine ⟨[Ev.moveIsoOut, Ev.moveElfOut], ?_⟩
          apply c5_assemble
          · intro n hmem
            simp at hmem
          · show s.events = _
            rw [moveBiosInOp_crashed h4, h2e, h1e, hR, List.append_assoc]
            rfl
        | ok st4 =>
          have h4e := moveBiosInOp_ok h4
          refine ⟨[Ev.moveIsoOut, Ev.moveElfOut, Ev.moveBiosIn st.found_bios], ?_⟩
          apply c5_assemble
          · intro n hmem
            simp at hmem
          · show st4.events = _
            rw [h4e, h2e, h1e, hR, List.append_assoc, List.append_assoc]
            rfl
      · obtain ⟨δ, hδ, hall⟩ := moveLoose_events st.found_bios st3.setup st3
        cases h4 : moveLoose st.found_bios st3 st3.setup with
        | crashed s =>
          rw [h4] at hδ
          have hδ2 : s.events = st3.events ++ δ := hδ
          refine ⟨[Ev.moveIsoOut, Ev.moveElfOut] ++ δ, ?_⟩
          apply c5_assemble
          · intro n hmem
            rcases List.mem_append.mp hmem with hm | hm
            · simp at hm
            · obtain ⟨m, hm2⟩ := hall _ hm
              cases hm2
          · show s.events = _
            rw [hδ2, h2e, h1e, hR, List.append_assoc, List.append_assoc]
            rfl
        | ok st4 =>
          rw [h4] at hδ
          have hδ2 : st4.events = st3.events ++ δ := hδ
          refine ⟨[Ev.moveIsoOut, Ev.moveElfOut] ++ δ, ?_⟩
          apply c5_assemble
          · intro n hmem
            rcases List.mem_append.mp hmem with hm | hm
            · simp at hm
            · obtain ⟨m, hm2⟩ := hall _ hm
              cases hm2
          · show st4.events = _
            rw [hδ2, h2e, h1e, hR, List.append_assoc, List.append_assoc]
            rfl

/-- Post-scan state in which the BIOS directory holds one dotted and one
dot-less file. -/
def stGateDotted : St :=
  ⟨["P3F.iso", "SLUS_216.21.elf", "bios.bin"], ["old.bin", "NODOT"], [], true, "bios.bin", []⟩

/-- C5 witness: `old.bin` is removed before the moves, `NODOT` never is. -/
theorem c5_witness :
    ∃ es2, (finalGate stGateDotted).st.events
        = (stGateDotted.bios.filter globStarDotStar).map Ev.removeBios ++ es2 ∧
      (∀ n, Ev.removeBios n ∉ es2) ∧
      (∀ f ∈ stGateDotted.bios, globStarDotStar f = true →
        Ev.removeBios f ∈ (stGateDotted.bios.filter globStarDotStar).map Ev.removeBios) ∧
      (∀ f ∈ stGateDotted.bios, globStarDotStar f = false →
        Ev.removeBios f ∉ (finalGate stGateDotted).st.events) ∧
      (∀ n, Ev.moveBiosIn n ∉ (stGateDotted.bios.filter globStarDotStar).map Ev.removeBios) :=
  c5_glob_removes_before_moves stGateDotted rfl (by decide) (by decide) rfl

end CEPomatic
